import Mathlib

/-!
Verification of the review-forge data-acquisition pipeline.

This development shallowly embeds the core logic of the repository:
the ASIN/domain URL resolution (`extractAsinAndDomain` in both Apify
tools), the product-info tool (`fetchAmazonProductInfoTool`), the
reviews tool (`fetchAmazonReviewsApifyTool`), and the orchestrating
flow (`composeReviewFlow` in `src/ai/flows/compose-review.ts`).

JavaScript strings are modelled as Lean `String`s, with the JS string
operations used by the code (trim, substring, split, endsWith, join)
reimplemented as structurally recursive functions over `String.data`
so that every definition is kernel-computable.  Host-library calls
(`new URL`, `fetch`, the Apify provider, the LLM completion call) are
modelled as explicit parameters: `Option ParsedURL` for the outcome of
`new URL` (`none` means the constructor threw), and outcome inductives
for the provider responses.
-/

namespace ReviewForge

/-! ## JavaScript string primitives -/

/-- Whitespace characters removed by JS `String.prototype.trim`
(ASCII whitespace, NBSP and BOM). -/
def jsWS (c : Char) : Bool :=
  c == ' ' || c == '\t' || c == '\n' || c == '\r' ||
  c.toNat == 11 || c.toNat == 12 || c.toNat == 0xa0 || c.toNat == 0xfeff

/-- JS `s.trim()`. -/
def jsTrim (s : String) : String :=
  ⟨((s.data.dropWhile jsWS).reverse.dropWhile jsWS).reverse⟩

/-- JS `s.length` (character count). -/
def jsLen (s : String) : Nat := s.data.length

/-- JS `s.substring(0, n)`. -/
def jsTake (s : String) (n : Nat) : String := ⟨s.data.take n⟩

/-- JS `array.join(sep)`. -/
def jsJoin (sep : String) : List String → String
  | [] => ""
  | [x] => x
  | x :: y :: xs => x ++ sep ++ jsJoin sep (y :: xs)

/-- JS `s.endsWith(suffix)`. -/
def jsEndsWith (s suffix : String) : Bool :=
  suffix.data.isSuffixOf s.data

/-- Splitting worker for `jsSplitOn`; the needle is `n0 :: nrest`
(never empty in this code base). -/
def splitOnCL (n0 : Char) (nrest : List Char) : List Char → List Char → List (List Char)
  | [], acc => [acc.reverse]
  | c :: rest, acc =>
    if (n0 :: nrest).isPrefixOf (c :: rest) then
      acc.reverse :: splitOnCL n0 nrest (rest.drop nrest.length) []
    else
      splitOnCL n0 nrest rest (c :: acc)
  termination_by l _ => l.length
  decreasing_by
    · simp only [List.length_drop, List.length_cons]; omega
    · simp only [List.length_cons]; omega

/-- JS `s.split(needle)` for a non-empty needle. -/
def jsSplitOn (s needle : String) : List String :=
  match needle.data with
  | [] => [s]
  | n0 :: nrest => (splitOnCL n0 nrest s.data []).map (fun l => (⟨l⟩ : String))

/-! ## Character classes and case conversion used by the ASIN regexes -/

/-- Character class `[A-Z0-9]` of the strict ASIN pattern. -/
def isAsinChar (c : Char) : Bool :=
  (65 ≤ c.toNat && c.toNat ≤ 90) || (48 ≤ c.toNat && c.toNat ≤ 57)

/-- Character class `[A-Z0-9]` under the `i` flag, i.e. `[A-Za-z0-9]`. -/
def isAsinCharCI (c : Char) : Bool :=
  isAsinChar c || (97 ≤ c.toNat && c.toNat ≤ 122)

/-- Strict test `/^[A-Z0-9]{10}$/` on a character list. -/
def validAsinB (l : List Char) : Bool :=
  l.length == 10 && l.all isAsinChar

/-- Case-insensitive test `/^[A-Z0-9]{10}$/i` on a character list. -/
def validAsinCIB (l : List Char) : Bool :=
  l.length == 10 && l.all isAsinCharCI

/-- Case-insensitive test `/^[A-Z0-9]{10}$/i` on a string. -/
def validAsinCIS (s : String) : Bool := validAsinCIB s.data

/-- JS `s.toUpperCase()` (ASCII range, via the core `Char.toUpper`). -/
def toUpperJS (s : String) : String := ⟨s.data.map Char.toUpper⟩

/-! ## Regex matchers of `extractAsinAndDomain`

The source uses three search regexes:
path pattern 1 `/\/(?:dp|gp\/product|-|d)\/([A-Z0-9]{10})/i`,
path pattern 2 `/\/gp\/aw\/d\/([A-Z0-9]{10})/i`, and the raw-string
fallback `/(?:asin=|dp\/|d\/)([A-Z0-9]{10})/i` (fetch-amazon-product-info
only).  They are modelled by leftmost-match search with the regex's
backtracking order over alternatives. -/

/-- Matching a literal marker case-insensitively at the head of the input,
returning the rest on success. -/
def stripLitCI : List Char → List Char → Option (List Char)
  | [], l => some l
  | _ :: _, [] => none
  | p :: ps, c :: cs => if c.toUpper = p.toUpper then stripLitCI ps cs else none

/-- Matching `([A-Z0-9]{10})` (with the `i` flag) at the head of the input:
the next 10 characters, when they exist and are alphanumeric. -/
def take10Asin (l : List Char) : Option (List Char) :=
  let t := l.take 10
  if t.length == 10 && t.all isAsinCharCI then some t else none

/-- Matching one alternative: the literal marker followed by the
10-character capture. -/
def tryMarker (m : String) (l : List Char) : Option (List Char) :=
  (stripLitCI m.data l).bind take10Asin

/-- Path pattern 1 tried at one position: a `/`, then the alternatives
`dp`, `gp/product`, `-`, `d` in the regex's order, then `/` and the capture. -/
def p1At : List Char → Option (List Char)
  | '/' :: rest =>
    (tryMarker "dp/" rest) <|> (tryMarker "gp/product/" rest) <|>
    (tryMarker "-/" rest) <|> (tryMarker "d/" rest)
  | _ => none

/-- Path pattern 2 tried at one position. -/
def p2At : List Char → Option (List Char)
  | '/' :: rest => tryMarker "gp/aw/d/" rest
  | _ => none

/-- Raw-string fallback pattern tried at one position: the alternatives
`asin=`, `dp/`, `d/` in the regex's order, then the capture. -/
def rawAt (l : List Char) : Option (List Char) :=
  (tryMarker "asin=" l) <|> (tryMarker "dp/" l) <|> (tryMarker "d/" l)

/-- Unanchored leftmost-match search, as JS `String.prototype.match`
performs for an unanchored regex. -/
def searchOcc (f : List Char → Option (List Char)) : List Char → Option (List Char)
  | [] => f []
  | l@(_ :: rest) => f l <|> searchOcc f rest

/-- Post-processing shared by every non-query match site in the source:
`match[1].toUpperCase()` followed by the strict `/^[A-Z0-9]{10}$/` check. -/
def upValidate (m : List Char) : Option (List Char) :=
  let u := m.map Char.toUpper
  if validAsinB u then some u else none

/-- ASIN from `url.pathname`: pattern 1 then pattern 2; a match is
uppercased and revalidated, and on revalidation failure the loop moves to
the next pattern (`break` fires only on success). -/
def asinFromPath (path : List Char) : Option (List Char) :=
  ((searchOcc p1At path).bind upValidate) <|> ((searchOcc p2At path).bind upValidate)

/-- Last-resort ASIN scan of the whole raw string
(fetch-amazon-product-info only). -/
def asinFromRaw (raw : List Char) : Option (List Char) :=
  (searchOcc rawAt raw).bind upValidate

/-! ## Hostname fallback regex (fetch-amazon-product-info only)

`/^(?:https?:\/\/)?(?:www\.)?([^\/]+)/i` — the ordered prefix list below
reproduces the backtracking order of the two optional groups. -/

/-- Capture `([^\/]+)`: the characters before the first `/`, required
non-empty. -/
def hostCapture (l : List Char) : Option (List Char) :=
  let h := l.takeWhile (fun c => c != '/')
  if h.isEmpty then none else some h

/-- Hostname extraction by the permissive regex over the raw string. -/
def hostnameFallback (l : List Char) : Option (List Char) :=
  ((stripLitCI "https://www.".data l).bind hostCapture) <|>
  ((stripLitCI "https://".data l).bind hostCapture) <|>
  ((stripLitCI "http://www.".data l).bind hostCapture) <|>
  ((stripLitCI "http://".data l).bind hostCapture) <|>
  ((stripLitCI "www.".data l).bind hostCapture) <|>
  hostCapture l

/-! ## Domain-code extraction (identical in both tools) -/

/-- Allow-list of marketplace TLDs from the source. -/
def knownTLDs : List String :=
  ["com", "co.uk", "de", "fr", "es", "it", "co.jp", "cn", "in", "com.br",
   "com.mx", "com.au", "ca"]

/-- Fallback when no allow-listed TLD matches: split the hostname on
`amazon.`, take the last part up to a `/`, and accept it when its length
is in `[1, 10]`. -/
def domainCandidate (hostname : String) : Option String :=
  let parts := jsSplitOn hostname "amazon."
  if parts.length > 1 then
    match parts.getLast? with
    | some lp =>
      match jsSplitOn lp "/" with
      | p0 :: _ => if 0 < jsLen p0 && jsLen p0 ≤ 10 then some p0 else none
      | [] => none
    | none => none
  else none

/-- Normalization of the two irregular short codes. -/
def normalizeDomain (d : String) : String :=
  if d = "uk" then "co.uk" else if d = "jp" then "co.jp" else d

/-- Domain code from a hostname: allow-list first, then the split
fallback, then normalization. -/
def extractDomain (hostname : String) : Option String :=
  match knownTLDs.find? (fun tld => jsEndsWith hostname ("amazon." ++ tld)) with
  | some tld => some (normalizeDomain tld)
  | none => (domainCandidate hostname).map normalizeDomain

/-! ## The two `extractAsinAndDomain` functions -/

/-- Outcome of `new URL(...)` — a host-library call, abstracted: the
fields the source reads. -/
structure ParsedURL where
  hostname : String
  pathname : String
  /-- Value of `url.searchParams.get('asin')`, `none` when absent. -/
  asinParam : Option String
deriving DecidableEq, Repr

/-- Result record `{ asin, domainCode }` of `extractAsinAndDomain`. -/
structure AsinDomain where
  asin : Option String
  domainCode : Option String
deriving DecidableEq, Repr

/-- ASIN extraction from a successfully parsed URL (identical in both
tools): the `asin` query parameter when it passes the case-insensitive
check, else the path patterns. -/
def asinFromParsed (u : ParsedURL) : Option String :=
  let aq : Option String :=
    match u.asinParam with
    | some q => if validAsinCIS q then some (toUpperJS q) else none
    | none => none
  match aq with
  | some x => some x
  | none => (asinFromPath u.pathname.data).map (fun l => (⟨l⟩ : String))

/-- The `extractAsinAndDomain` of `fetch-amazon-product-info.ts`:
on parse failure the hostname comes from the permissive regex, and a
missing ASIN falls back to the raw-string scan. -/
def extractAsinAndDomainPI (raw : String) (parsed : Option ParsedURL) : AsinDomain :=
  let t := jsTrim raw
  let step1 : Option String × Option String :=
    match parsed with
    | some u => (asinFromParsed u, some u.hostname)
    | none => (none, (hostnameFallback t.data).map (fun l => (⟨l⟩ : String)))
  let asin : Option String :=
    match step1.1 with
    | some x => some x
    | none => (asinFromRaw t.data).map (fun l => (⟨l⟩ : String))
  let domainCode : Option String :=
    match step1.2 with
    | some h => extractDomain h
    | none => none
  ⟨asin, domainCode⟩

/-- The `extractAsinAndDomain` of `fetch-amazon-reviews-apify.ts`:
the whole body sits in one `try`, whose `catch` returns
`{ asin: null, domainCode: null }`; there is no regex fallback of any
kind. -/
def extractAsinAndDomainRev (_raw : String) (parsed : Option ParsedURL) : AsinDomain :=
  match parsed with
  | none => ⟨none, none⟩
  | some u => ⟨asinFromParsed u, extractDomain u.hostname⟩

/-! ## The product-info tool (`fetchAmazonProductInfoTool`) -/

/-- Output schema of the product-info tool. -/
structure FetchAmazonProductInfoOutput where
  productName : String
  productDescription : String
  productImageURL : Option String
deriving DecidableEq, Repr

/-- Sentinel name used by every lenient failure path of the tool. -/
def DEFAULT_PRODUCT_NAME : String := "Product (Details Fetching Failed)"

/-- Sentinel description used by every lenient failure path of the tool. -/
def DEFAULT_DESCRIPTION : String :=
  "Could not fetch detailed product description. Please refer to the Amazon page."

/-- Default record returned on every failure path of the tool. -/
def defaultInfo : FetchAmazonProductInfoOutput :=
  ⟨DEFAULT_PRODUCT_NAME, DEFAULT_DESCRIPTION, none⟩

/-- Fields the source reads from the first Apify dataset item
(`productData`).  `none` stands for an absent or non-string (resp.
non-array) field, matching the source's `typeof`/`Array.isArray`
guards. -/
structure ProductData where
  title : Option String
  productDescription : Option String
  features : Option (List String)
  /-- Items of `aboutProduct`; each item's `.value`, `none` when missing. -/
  aboutProduct : Option (List (Option String))
  imageUrl : Option String
  /-- Value of `mainImage.link` when present and a string. -/
  mainImageLink : Option String
  /-- Value of `images[0].link` when the array is non-empty and the link a string. -/
  imagesFirstLink : Option String
deriving DecidableEq, Repr

/-- JS truthiness filter for an optional string field: `undefined` and
the empty string are falsy. -/
def truthyStr : Option String → Option String
  | some s => if s = "" then none else some s
  | none => none

/-- Description assembly of the tool: free-text description, feature
list, then the `aboutProduct` fallback, then the default. -/
def buildDescription (pd : ProductData) : String :=
  let d0 : String := (truthyStr pd.productDescription).getD ""
  let d1 : String :=
    match pd.features with
    | some fs =>
      if fs.length > 0 then
        let featuresText := jsJoin ". " fs
        if d0 ≠ "" ∧ jsLen d0 < 20 ∧ jsLen featuresText > jsLen d0 then featuresText
        else if d0 ≠ "" then d0 ++ ". " ++ featuresText
        else featuresText
      else d0
    | none => d0
  let d2 : String :=
    if d1 = "" then
      match pd.aboutProduct with
      | some ab => jsJoin ". " (ab.map (fun v => (truthyStr v).getD ""))
      | none => d1
    else d1
  if d2 = "" ∨ jsTrim d2 = "" then DEFAULT_DESCRIPTION else d2

/-- Image-URL extraction of the tool: `imageUrl`, then `mainImage.link`,
then `images[0].link`, each accepted under a string-type and truthiness
check only. -/
def extractImageURL (pd : ProductData) : Option String :=
  match truthyStr pd.imageUrl with
  | some s => some s
  | none =>
    match truthyStr pd.mainImageLink with
    | some s => some s
    | none => truthyStr pd.imagesFirstLink

/-- Processing of a well-formed first dataset item, ending with the
trim-and-truncate of name (200) and description (1500). -/
def processProductData (pd : ProductData) : FetchAmazonProductInfoOutput :=
  let productName : String := (truthyStr pd.title).getD DEFAULT_PRODUCT_NAME
  let description := buildDescription pd
  ⟨jsTake (jsTrim productName) 200, jsTake (jsTrim description) 1500, extractImageURL pd⟩

/-- Outcome of the Apify product-details call, abstracting the network:
a transport-level failure (`fetch` threw, non-ok status, or a JSON
parse error), a payload that is not a non-empty array of objects, or
the first dataset item. -/
inductive ApifyInfoOutcome where
  | transportError
  | badData
  | data (pd : ProductData)
deriving DecidableEq, Repr

/-- The whole `fetchAmazonProductInfoTool` handler.  Every failure path
returns `defaultInfo`; no path throws. -/
def fetchAmazonProductInfoModel (token : Option String) (productURL : String)
    (parsed : Option ParsedURL) (outcome : ApifyInfoOutcome) :
    FetchAmazonProductInfoOutput :=
  match token with
  | none => defaultInfo
  | some _ =>
    match extractAsinAndDomainPI productURL parsed with
    | ⟨some _, some _⟩ =>
      match outcome with
      | .transportError => defaultInfo
      | .badData => defaultInfo
      | .data pd => processProductData pd
    | _ => defaultInfo

/-! ## The reviews tool (`fetchAmazonReviewsApifyTool`) -/

/-- Output schema of the reviews tool. -/
structure FetchAmazonReviewsApifyOutput where
  reviews : List String
  productTitle : Option String
deriving DecidableEq, Repr

/-- Fields the source reads from one review record; `none` stands for
an absent or non-string field. -/
structure ReviewItem where
  text : Option String
  productTitle : Option String
deriving DecidableEq, Repr

/-- The check `typeof v === 'string' && v.trim() !== ''` with the
trimmed value on success. -/
def nonBlankTrim : Option String → Option String
  | some s => if jsTrim s = "" then none else some (jsTrim s)
  | none => none

/-- The extraction loop over the dataset items.  A `none` item stands
for a non-object entry, skipped whole; review texts are pushed trimmed
when non-blank; the product title is the first non-blank one. -/
def processReviewItems : List (Option ReviewItem) → FetchAmazonReviewsApifyOutput
  | [] => ⟨[], none⟩
  | none :: rest => processReviewItems rest
  | some it :: rest =>
    let r := processReviewItems rest
    let reviews :=
      match nonBlankTrim it.text with
      | some m => m :: r.reviews
      | none => r.reviews
    let title :=
      match nonBlankTrim it.productTitle with
      | some t => some t
      | none => r.productTitle
    ⟨reviews, title⟩

/-- Modelled from the spec: the alternate product title is "the first
non-blank productTitle field encountered across the records".  This
definition follows the spec's words and is compared with the extraction
loop's result. -/
def firstNonBlankTitleSpec : List (Option ReviewItem) → Option String
  | [] => none
  | none :: rest => firstNonBlankTitleSpec rest
  | some it :: rest =>
    match nonBlankTrim it.productTitle with
    | some t => some t
    | none => firstNonBlankTitleSpec rest

/-- Outcome of the Apify reviews call, abstracting the network. -/
inductive ApifyReviewsOutcome where
  | transportError
  | notArray
  | items (l : List (Option ReviewItem))
deriving DecidableEq, Repr

/-- The whole `fetchAmazonReviewsApifyTool` handler.  Every failure path
returns the empty output; no path throws; an empty dataset flows through
the extraction loop and yields the empty output as a regular result. -/
def fetchAmazonReviewsApifyModel (token : Option String) (productURL : String)
    (parsed : Option ParsedURL) (outcome : ApifyReviewsOutcome) :
    FetchAmazonReviewsApifyOutput :=
  match token with
  | none => ⟨[], none⟩
  | some _ =>
    match extractAsinAndDomainRev productURL parsed with
    | ⟨some _, some _⟩ =>
      match outcome with
      | .transportError => ⟨[], none⟩
      | .notArray => ⟨[], none⟩
      | .items l => processReviewItems l
    | _ => ⟨[], none⟩

/-! ## The compose flow (`composeReviewFlow`) -/

/-- Parsed output of the completion call (`promptOutput`). -/
structure PromptOut where
  reviewTitle : String
  reviewText : String
deriving DecidableEq, Repr

/-- Output schema of `composeReviewFlow`. -/
structure ComposeReviewOutput where
  reviewTitle : String
  reviewText : String
  fetchedProductName : String
  fetchedProductImageURL : Option String
deriving DecidableEq, Repr

/-- Error thrown when no product name could be determined. -/
def nameErrorMsg : String :=
  "Could not fetch product details from the provided Amazon link. Please ensure the link is a valid, public product page and try again."

/-- Error thrown when the prompt output is missing or has an empty field. -/
def promptErrorMsg : String :=
  "Failed to generate review text and title from prompt. Output might be missing expected fields."

/-- JS falsiness of an optional string (`undefined` or `""`). -/
def jsFalsy : Option String → Bool
  | none => true
  | some s => s = ""

/-- JS `x || y` on optional strings. -/
def jsOrStr (x y : Option String) : Option String := if jsFalsy x then y else x

/-- One rendered snippet line:
`` `- ${review.substring(0, 300)}${review.length > 300 ? '...' : ''}` ``. -/
def bullet (r : String) : String :=
  "- " ++ jsTake r 300 ++ (if jsLen r > 300 then "..." else "")

/-- The first ten snippets rendered as bullet lines
(`.slice(0, 10).map(...)`). -/
def bulletLines (reviews : List String) : List String :=
  (reviews.take 10).map bullet

/-- The `customerReviewsText` value built by the flow: `undefined` for an
empty list, else the bullet lines joined with the literal two-character
separator `\n` (the source writes `join('\\n')`). -/
def customerReviewsText (reviews : List String) : Option String :=
  if reviews.length > 0 then some (jsJoin "\\n" (bulletLines reviews)) else none

/-- The `customerReviewsText` as the flow computes it from the possibly
failed reviews fetch (`fetchedApifyReviewsData?.reviews ?? []`). -/
def composeCustomerReviewsText (revResult : Option FetchAmazonReviewsApifyOutput) :
    Option String :=
  customerReviewsText ((revResult.map FetchAmazonReviewsApifyOutput.reviews).getD [])

/-- The body of `composeReviewFlow` after the two tool calls, which the
source wraps in individual `try`/`catch` blocks: `none` for a fetch
result means its tool call threw.  The completion call is abstracted by
its parsed output (`none` when `output` was null).  The flow throws
(modelled by `Except.error`) exactly on the two guarded conditions. -/
def composeAfterFetch (revResult : Option FetchAmazonReviewsApifyOutput)
    (infoResult : Option FetchAmazonProductInfoOutput)
    (promptOutput : Option PromptOut) : Except String ComposeReviewOutput :=
  match jsOrStr (revResult.bind FetchAmazonReviewsApifyOutput.productTitle)
      (infoResult.map FetchAmazonProductInfoOutput.productName) with
  | none => .error nameErrorMsg
  | some nm =>
    if nm = "" then .error nameErrorMsg
    else
      match promptOutput with
      | none => .error promptErrorMsg
      | some po =>
        if po.reviewText = "" ∨ po.reviewTitle = "" then .error promptErrorMsg
        else .ok ⟨po.reviewTitle, po.reviewText, nm,
          infoResult.bind FetchAmazonProductInfoOutput.productImageURL⟩

end ReviewForge

namespace ReviewForge

theorem toNat_charOfNat_of_valid {n : Nat} (h : n.isValidChar) : (Char.ofNat n).toNat = n := by
  rw [Char.ofNat, dif_pos h]
  rfl

theorem isAsinChar_toUpper {c : Char} (h : isAsinCharCI c = true) : isAsinChar c.toUpper = true := by
  simp only [isAsinCharCI, isAsinChar, Bool.or_eq_true, Bool.and_eq_true,
    decide_eq_true_eq] at h ⊢
  unfold Char.toUpper
  by_cases hl : c.toNat ≥ 97 ∧ c.toNat ≤ 122
  · rw [if_pos hl]
    have hv : (c.toNat - 32).isValidChar := Or.inl (by omega)
    rw [toNat_charOfNat_of_valid hv]
    left
    omega
  · rw [if_neg hl]
    rcases h with (h | h) | h
    · exact Or.inl h
    · exact Or.inr h
    · exact absurd ⟨h.1, h.2⟩ hl

theorem validAsinB_map_toUpper {l : List Char} (h : validAsinCIB l = true) :
    validAsinB (l.map Char.toUpper) = true := by
  simp only [validAsinCIB, validAsinB, Bool.and_eq_true, List.all_eq_true, beq_iff_eq,
    List.length_map] at h ⊢
  refine ⟨h.1, ?_⟩
  intro c hc
  simp only [List.mem_map] at hc
  obtain ⟨d, hd, rfl⟩ := hc
  exact isAsinChar_toUpper (h.2 d hd)

theorem validAsinB_of_upValidate {m u : List Char} (h : upValidate m = some u) :
    validAsinB u = true := by
  dsimp only [upValidate] at h
  split at h
  · rename_i hc
    cases h
    exact hc
  · cases h

end ReviewForge
namespace ReviewForge

theorem validAsinB_of_asinFromPath {path : List Char} {l : List Char}
    (h : asinFromPath path = some l) : validAsinB l = true := by
  unfold asinFromPath at h
  rcases (Option.orElse_eq_some _ _ _).mp h with h1 | ⟨-, h1⟩ <;>
    · rcases Option.bind_eq_some.mp h1 with ⟨m, -, hup⟩
      exact validAsinB_of_upValidate hup

theorem validAsinB_of_asinFromRaw {raw : List Char} {l : List Char}
    (h : asinFromRaw raw = some l) : validAsinB l = true := by
  unfold asinFromRaw at h
  rcases Option.bind_eq_some.mp h with ⟨m, -, hup⟩
  exact validAsinB_of_upValidate hup

theorem validAsinB_of_asinFromParsed {u : ParsedURL} {a : String}
    (h : asinFromParsed u = some a) : validAsinB a.data = true := by
  rcases hq : u.asinParam with _ | q
  · simp only [asinFromParsed, hq, Option.map_eq_some'] at h
    obtain ⟨l, hl, rfl⟩ := h
    exact validAsinB_of_asinFromPath hl
  · by_cases hv : validAsinCIS q = true
    · simp only [asinFromParsed, hq, hv, if_true, Option.some.injEq] at h
      subst h
      exact validAsinB_map_toUpper hv
    · simp only [asinFromParsed, hq, hv, if_false, Bool.false_eq_true,
        Option.map_eq_some'] at h
      obtain ⟨l, hl, rfl⟩ := h
      exact validAsinB_of_asinFromPath hl

theorem validAsinB_of_extractPI {raw : String} {parsed : Option ParsedURL} {a : String}
    (h : (extractAsinAndDomainPI raw parsed).asin = some a) : validAsinB a.data = true := by
  unfold extractAsinAndDomainPI at h
  rcases parsed with _ | u
  · simp only [Option.map_eq_some'] at h
    obtain ⟨l, hl, rfl⟩ := h
    exact validAsinB_of_asinFromRaw hl
  · simp only at h
    split at h
    · rename_i x hx
      cases h
      exact validAsinB_of_asinFromParsed hx
    · simp only [Option.map_eq_some'] at h
      obtain ⟨l, hl, rfl⟩ := h
      exact validAsinB_of_asinFromRaw hl

theorem validAsinB_of_extractRev {raw : String} {parsed : Option ParsedURL} {a : String}
    (h : (extractAsinAndDomainRev raw parsed).asin = some a) : validAsinB a.data = true := by
  unfold extractAsinAndDomainRev at h
  rcases parsed with _ | u
  · cases h
  · exact validAsinB_of_asinFromParsed h

end ReviewForge
namespace ReviewForge

/-- C10: every ASIN produced by either tool's URL resolution is either absent
or a string of exactly 10 uppercase-alphanumeric characters. -/
theorem extracted_asin_upper_alnum (raw : String) (parsed : Option ParsedURL) (a : String) :
    ((extractAsinAndDomainPI raw parsed).asin = some a →
      a.data.length = 10 ∧ ∀ c ∈ a.data, isAsinChar c = true) ∧
    ((extractAsinAndDomainRev raw parsed).asin = some a →
      a.data.length = 10 ∧ ∀ c ∈ a.data, isAsinChar c = true) := by
  constructor <;> intro h
  · have hv := validAsinB_of_extractPI h
    simpa [validAsinB, List.all_eq_true] using hv
  · have hv := validAsinB_of_extractRev h
    simpa [validAsinB, List.all_eq_true] using hv

theorem extracted_asin_upper_alnum_witness :
    (extractAsinAndDomainPI "https://www.amazon.com/dp/b0testitem"
        (some ⟨"www.amazon.com", "/dp/b0testitem", none⟩)).asin = some "B0TESTITEM" ∧
    ("B0TESTITEM" : String).data.length = 10 :=
  ⟨by decide, ((extracted_asin_upper_alnum "https://www.amazon.com/dp/b0testitem"
    (some ⟨"www.amazon.com", "/dp/b0testitem", none⟩) "B0TESTITEM").1 (by decide)).1⟩

/-- C5: when the asin query parameter holds a valid identifier, both tools
return it (uppercased), whatever the path contains. -/
theorem query_param_asin_priority (raw : String) (p : ParsedURL) (q : String)
    (hq : p.asinParam = some q) (hv : validAsinCIS q = true) :
    (extractAsinAndDomainPI raw (some p)).asin = some (toUpperJS q) ∧
    (extractAsinAndDomainRev raw (some p)).asin = some (toUpperJS q) := by
  have hparsed : asinFromParsed p = some (toUpperJS q) := by
    simp [asinFromParsed, hq, hv]
  constructor
  · unfold extractAsinAndDomainPI
    simp only [hparsed]
  · unfold extractAsinAndDomainRev
    simp [hparsed]

theorem query_param_asin_priority_witness :
    (extractAsinAndDomainPI "https://www.amazon.com/dp/C1PATHITEM?asin=b0testitem"
        (some ⟨"www.amazon.com", "/dp/C1PATHITEM", some "b0testitem"⟩)).asin =
      some "B0TESTITEM" ∧
    (extractAsinAndDomainRev "https://www.amazon.com/dp/C1PATHITEM?asin=b0testitem"
        (some ⟨"www.amazon.com", "/dp/C1PATHITEM", some "b0testitem"⟩)).asin =
      some "B0TESTITEM" :=
  query_param_asin_priority "https://www.amazon.com/dp/C1PATHITEM?asin=b0testitem"
    ⟨"www.amazon.com", "/dp/C1PATHITEM", some "b0testitem"⟩ "b0testitem" rfl (by decide)

/-- C9 counterexample: on a raw string that strict URL parsing rejects, the
reviews tool's resolver reports nothing at all while the product-info
tool's resolver recovers both the identifier and the marketplace code. -/
theorem no_fallback_in_reviews_cex :
    extractAsinAndDomainRev "amazon.com/dp/B0TESTITEM" none = ⟨none, none⟩ ∧
    extractAsinAndDomainPI "amazon.com/dp/B0TESTITEM" none =
      ⟨some "B0TESTITEM", some "com"⟩ :=
  ⟨by decide, by decide⟩

/-- C9 amended: only the product-info tool falls back to the raw-string
identifier scan and the permissive hostname regex when strict parsing
fails; the reviews tool immediately returns no identifier and no
marketplace code. -/
theorem fallback_only_in_product_info (raw : String) :
    extractAsinAndDomainRev raw none = ⟨none, none⟩ ∧
    (extractAsinAndDomainPI raw none).asin =
      (asinFromRaw (jsTrim raw).data).map (fun l => (⟨l⟩ : String)) ∧
    (extractAsinAndDomainPI raw none).domainCode =
      ((hostnameFallback (jsTrim raw).data).map (fun l => (⟨l⟩ : String))).bind extractDomain := by
  refine ⟨rfl, rfl, ?_⟩
  unfold extractAsinAndDomainPI
  rcases hh : hostnameFallback (jsTrim raw).data with _ | h <;> simp [hh]

end ReviewForge
namespace ReviewForge

theorem jsOrStr_of_falsy {x y : Option String} (h : jsFalsy x = true) : jsOrStr x y = y := by
  unfold jsOrStr
  rw [if_pos h]

theorem jsFalsy_some_of_ne {t : String} (h : t ≠ "") : jsFalsy (some t) = false := by
  simp [jsFalsy, h]

theorem jsOrStr_of_ne {t : String} {y : Option String} (h : t ≠ "") :
    jsOrStr (some t) y = some t := by
  unfold jsOrStr
  rw [jsFalsy_some_of_ne h]
  rfl

theorem composeAfterFetch_ok_iff {rev : Option FetchAmazonReviewsApifyOutput}
    {info : Option FetchAmazonProductInfoOutput} {po : Option PromptOut}
    {r : ComposeReviewOutput} :
    composeAfterFetch rev info po = .ok r ↔
    ∃ nm p, jsOrStr (rev.bind FetchAmazonReviewsApifyOutput.productTitle)
        (info.map FetchAmazonProductInfoOutput.productName) = some nm ∧ nm ≠ "" ∧
      po = some p ∧ p.reviewText ≠ "" ∧ p.reviewTitle ≠ "" ∧
      r = ⟨p.reviewTitle, p.reviewText, nm,
        info.bind FetchAmazonProductInfoOutput.productImageURL⟩ := by
  unfold composeAfterFetch
  rcases hnm : jsOrStr (rev.bind FetchAmazonReviewsApifyOutput.productTitle)
      (info.map FetchAmazonProductInfoOutput.productName) with _ | nm
  · simp
  · simp only [Option.some.injEq]
    by_cases hne : nm = ""
    · subst hne
      simp
    · rw [if_neg hne]
      rcases po with _ | p
      · simp
      · dsimp only
        by_cases hpo : p.reviewText = "" ∨ p.reviewTitle = ""
        · rw [if_pos hpo]
          simp only [Option.some.injEq]
          constructor
          · intro h
            cases h
          · rintro ⟨nm', p', h1, h2, h3, h4, h5, h6⟩
            cases h3
            rcases hpo with h | h
            · exact absurd h h4
            · exact absurd h h5
        · rw [if_neg hpo]
          push_neg at hpo
          constructor
          · intro h
            cases h
            exact ⟨nm, p, rfl, hne, rfl, hpo.1, hpo.2, rfl⟩
          · rintro ⟨nm', p', h1, h2, h3, h4, h5, rfl⟩
            cases h3
            cases h1
            rfl

end ReviewForge
namespace ReviewForge

theorem composeAfterFetch_error_of_falsy {rev : Option FetchAmazonReviewsApifyOutput}
    {info : Option FetchAmazonProductInfoOutput} {po : Option PromptOut}
    (h : jsFalsy (jsOrStr (rev.bind FetchAmazonReviewsApifyOutput.productTitle)
      (info.map FetchAmazonProductInfoOutput.productName)) = true) :
    composeAfterFetch rev info po = .error nameErrorMsg := by
  unfold composeAfterFetch
  rcases hx : jsOrStr (rev.bind FetchAmazonReviewsApifyOutput.productTitle)
      (info.map FetchAmazonProductInfoOutput.productName) with _ | nm
  · rfl
  · rw [hx] at h
    simp only [jsFalsy, decide_eq_true_eq] at h
    simp [h]

/-- C1 counterexample: with both a non-generic ProductInfo name and a
review-side alternate title present, compose resolves the name to the
alternate title, not to the ProductInfo name. -/
theorem name_priority_cex :
    composeAfterFetch (some ⟨[], some "Alt Title"⟩) (some ⟨"Info Name", "Desc", none⟩)
        (some ⟨"T", "B"⟩) =
      .ok ⟨"T", "B", "Alt Title", none⟩ ∧ "Alt Title" ≠ "Info Name" :=
  ⟨by rfl, by decide⟩

/-- C1 amended: compose prefers the review corpus's alternate title and
uses the ProductInfo name only when the alternate title is absent or empty
(no generic-placeholder check exists); when neither source yields a
non-empty name the composition fails with the name error. -/
theorem name_resolution_policy (revResult : Option FetchAmazonReviewsApifyOutput)
    (infoResult : Option FetchAmazonProductInfoOutput) (promptOutput : Option PromptOut) :
    (∀ t, revResult.bind FetchAmazonReviewsApifyOutput.productTitle = some t → t ≠ "" →
      ∀ r, composeAfterFetch revResult infoResult promptOutput = .ok r →
        r.fetchedProductName = t) ∧
    (jsFalsy (revResult.bind FetchAmazonReviewsApifyOutput.productTitle) = true →
      ∀ n, infoResult.map FetchAmazonProductInfoOutput.productName = some n → n ≠ "" →
      ∀ r, composeAfterFetch revResult infoResult promptOutput = .ok r →
        r.fetchedProductName = n) ∧
    (jsFalsy (revResult.bind FetchAmazonReviewsApifyOutput.productTitle) = true →
      jsFalsy (infoResult.map FetchAmazonProductInfoOutput.productName) = true →
      composeAfterFetch revResult infoResult promptOutput = .error nameErrorMsg) := by
  refine ⟨?_, ?_, ?_⟩
  · intro t ht htne r hr
    rcases composeAfterFetch_ok_iff.mp hr with ⟨nm, p, h1, -, -, -, -, rfl⟩
    rw [ht, jsOrStr_of_ne htne] at h1
    cases h1
    rfl
  · intro hfalsy n hn hne r hr
    rcases composeAfterFetch_ok_iff.mp hr with ⟨nm, p, h1, -, -, -, -, rfl⟩
    rw [jsOrStr_of_falsy hfalsy, hn] at h1
    cases h1
    rfl
  · intro hf1 hf2
    exact composeAfterFetch_error_of_falsy (by rw [jsOrStr_of_falsy hf1]; exact hf2)

theorem name_resolution_policy_witness :
    composeAfterFetch (some ⟨[], none⟩) (some ⟨"", "Desc", none⟩) (some ⟨"T", "B"⟩) =
      .error nameErrorMsg :=
  (name_resolution_policy (some ⟨[], none⟩) (some ⟨"", "Desc", none⟩)
    (some ⟨"T", "B"⟩)).2.2 (by decide) (by decide)

/-- C2 counterexample: the product-info fetch failed (threw) yet composition
succeeds on the strength of the review fetch's alternate title. -/
theorem info_failure_not_fatal_cex :
    composeAfterFetch (some ⟨[], some "Alt Title"⟩) none (some ⟨"T", "B"⟩) =
      .ok ⟨"T", "B", "Alt Title", none⟩ :=
  by rfl

/-- C2 amended: both fetch failures are caught and are individually
non-fatal.  A review-fetch failure behaves exactly like an empty corpus;
a product-info fetch failure is fatal only when the review fetch supplied
no non-empty alternate title, in which case compose fails with the name
error, and otherwise composition continues on the alternate title. -/
theorem fetch_failure_policy (revResult : Option FetchAmazonReviewsApifyOutput)
    (infoResult : Option FetchAmazonProductInfoOutput) (promptOutput : Option PromptOut) :
    (composeAfterFetch none infoResult promptOutput =
      composeAfterFetch (some ⟨[], none⟩) infoResult promptOutput) ∧
    (composeCustomerReviewsText none = composeCustomerReviewsText (some ⟨[], none⟩)) ∧
    (jsFalsy (revResult.bind FetchAmazonReviewsApifyOutput.productTitle) = true →
      composeAfterFetch revResult none promptOutput = .error nameErrorMsg) ∧
    (∀ t, revResult.bind FetchAmazonReviewsApifyOutput.productTitle = some t → t ≠ "" →
      ∀ r, composeAfterFetch revResult none promptOutput = .ok r →
        r.fetchedProductName = t) := by
  refine ⟨rfl, rfl, ?_, ?_⟩
  · intro hf
    exact composeAfterFetch_error_of_falsy (by rw [jsOrStr_of_falsy hf]; rfl)
  · intro t ht htne r hr
    rcases composeAfterFetch_ok_iff.mp hr with ⟨nm, p, h1, -, -, -, -, rfl⟩
    rw [ht, jsOrStr_of_ne htne] at h1
    cases h1
    rfl

theorem fetch_failure_policy_witness :
    composeAfterFetch (some ⟨["great"], none⟩) none (some ⟨"T", "B"⟩) =
      .error nameErrorMsg :=
  (fetch_failure_policy (some ⟨["great"], none⟩) none (some ⟨"T", "B"⟩)).2.2.1 (by decide)

/-- C4: compose never returns an output with an empty title or body, and
never returns a result at all when the completion output is missing or has
an empty field. -/
theorem compose_all_or_nothing (revResult : Option FetchAmazonReviewsApifyOutput)
    (infoResult : Option FetchAmazonProductInfoOutput) (promptOutput : Option PromptOut) :
    (∀ r, composeAfterFetch revResult infoResult promptOutput = .ok r →
      r.reviewTitle ≠ "" ∧ r.reviewText ≠ "") ∧
    (∀ r, composeAfterFetch revResult infoResult none = .ok r → False) ∧
    (∀ po r, promptOutput = some po → (po.reviewTitle = "" ∨ po.reviewText = "") →
      composeAfterFetch revResult infoResult promptOutput = .ok r → False) := by
  refine ⟨?_, ?_, ?_⟩
  · intro r hr
    rcases composeAfterFetch_ok_iff.mp hr with ⟨nm, p, -, -, -, h4, h5, rfl⟩
    exact ⟨h5, h4⟩
  · intro r hr
    rcases composeAfterFetch_ok_iff.mp hr with ⟨nm, p, -, -, h3, -, -, -⟩
    cases h3
  · intro po r hpo hbad hr
    rcases composeAfterFetch_ok_iff.mp hr with ⟨nm, p, -, -, h3, h4, h5, -⟩
    rw [hpo] at h3
    cases h3
    rcases hbad with h | h
    · exact h5 h
    · exact h4 h

theorem compose_all_or_nothing_witness :
    composeAfterFetch (some ⟨[], some "Alt Title"⟩) none
        (some ⟨"Great title", "Great text"⟩) =
      .ok ⟨"Great title", "Great text", "Alt Title", none⟩ ∧
    (("Great title" : String) ≠ "" ∧ ("Great text" : String) ≠ "") :=
  ⟨by rfl, (compose_all_or_nothing (some ⟨[], some "Alt Title"⟩) none
    (some ⟨"Great title", "Great text"⟩)).1 ⟨"Great title", "Great text", "Alt Title", none⟩
    (by rfl)⟩

end ReviewForge
namespace ReviewForge

/-- C3 counterexample: with the token absent, the product-info tool returns
the sentinel record even though the provider had real data to offer. -/
theorem missing_token_sentinel_cex :
    fetchAmazonProductInfoModel none "https://www.amazon.com/dp/B0TESTITEM"
        (some ⟨"www.amazon.com", "/dp/B0TESTITEM", none⟩)
        (.data ⟨some "Real Name", some "A real product description text.", none, none,
          some "https://img.example.com/x.jpg", none, none⟩) = defaultInfo := by
  rfl

/-- C3 amended: the tool does not fail when the token is absent; it returns
the default sentinel ProductInfo on that path, unconditionally. -/
theorem missing_token_returns_default (productURL : String) (parsed : Option ParsedURL)
    (outcome : ApifyInfoOutcome) :
    fetchAmazonProductInfoModel none productURL parsed outcome = defaultInfo := rfl

/-- C6 counterexample: an unparseable image candidate string is propagated
to the caller, not dropped. -/
theorem image_url_not_validated_cex :
    (fetchAmazonProductInfoModel (some "tok") "https://www.amazon.com/dp/B0TESTITEM"
        (some ⟨"www.amazon.com", "/dp/B0TESTITEM", none⟩)
        (.data ⟨some "Name", some "A reasonably long product description.", none, none,
          some "not a valid url at all", none, none⟩)).productImageURL =
      some "not a valid url at all" := by
  rfl

theorem truthyStr_eq_some {x : Option String} {s : String} :
    truthyStr x = some s ↔ x = some s ∧ s ≠ "" := by
  rcases x with _ | v
  · simp [truthyStr]
  · by_cases h : v = "" <;> simp [truthyStr, h]
    · exact fun h2 => h2.symm
    · intro h2
      subst h2
      exact h

/-- C6 amended: a returned productImageURL is always one of the raw
candidate field values, accepted under a truthiness check only; a non-empty
imageUrl candidate is returned verbatim, with no URL validation. -/
theorem image_extraction_policy (pd : ProductData) :
    (∀ s, extractImageURL pd = some s → s ≠ "" ∧
      (pd.imageUrl = some s ∨ pd.mainImageLink = some s ∨ pd.imagesFirstLink = some s)) ∧
    (∀ s, pd.imageUrl = some s → s ≠ "" → extractImageURL pd = some s) ∧
    (∀ token productURL parsed,
      fetchAmazonProductInfoModel (some token) productURL parsed (.data pd) = defaultInfo ∨
      (fetchAmazonProductInfoModel (some token) productURL parsed (.data pd)).productImageURL =
        extractImageURL pd) := by
  refine ⟨?_, ?_, ?_⟩
  · intro s hs
    simp only [extractImageURL] at hs
    rcases h1 : truthyStr pd.imageUrl with _ | v1 <;> simp only [h1] at hs
    · rcases h2 : truthyStr pd.mainImageLink with _ | v2 <;> simp only [h2] at hs
      · rcases truthyStr_eq_some.mp hs with ⟨h3, hne⟩
        exact ⟨hne, Or.inr (Or.inr h3)⟩
      · cases hs
        rcases truthyStr_eq_some.mp h2 with ⟨h3, hne⟩
        exact ⟨hne, Or.inr (Or.inl h3)⟩
    · cases hs
      rcases truthyStr_eq_some.mp h1 with ⟨h3, hne⟩
      exact ⟨hne, Or.inl h3⟩
  · intro s hs hne
    have h1 : truthyStr pd.imageUrl = some s := truthyStr_eq_some.mpr ⟨hs, hne⟩
    simp only [extractImageURL, h1]
  · intro token productURL parsed
    unfold fetchAmazonProductInfoModel
    rcases hx : extractAsinAndDomainPI productURL parsed with ⟨a, d⟩
    rcases a with _ | av <;> rcases d with _ | dv
    · exact Or.inl rfl
    · exact Or.inl rfl
    · exact Or.inl rfl
    · exact Or.inr rfl

theorem image_extraction_policy_witness :
    extractImageURL ⟨some "N", none, none, none, some "definitely not a url", none, none⟩ =
      some "definitely not a url" :=
  (image_extraction_policy
    ⟨some "N", none, none, none, some "definitely not a url", none, none⟩).2.1
    "definitely not a url" rfl (by decide)

end ReviewForge
namespace ReviewForge

theorem nonBlankTrim_eq_some {x : Option String} {s : String}
    (h : nonBlankTrim x = some s) : s ≠ "" := by
  rcases x with _ | v
  · cases h
  · simp only [nonBlankTrim] at h
    by_cases hv : jsTrim v = ""
    · rw [if_pos hv] at h
      cases h
    · rw [if_neg hv] at h
      cases h
      exact hv

/-- C7: an empty provider record set yields the empty output as a regular
result; every extracted snippet is non-blank; the alternate title is the
first non-blank productTitle across the records. -/
theorem reviews_extraction_policy (token productURL : String) (parsed : Option ParsedURL)
    (items : List (Option ReviewItem)) :
    fetchAmazonReviewsApifyModel (some token) productURL parsed (.items []) = ⟨[], none⟩ ∧
    (∀ a d, extractAsinAndDomainRev productURL parsed = ⟨some a, some d⟩ →
      fetchAmazonReviewsApifyModel (some token) productURL parsed (.items items) =
        processReviewItems items) ∧
    (∀ s ∈ (processReviewItems items).reviews, s ≠ "") ∧
    (processReviewItems items).productTitle = firstNonBlankTitleSpec items := by
  refine ⟨?_, ?_, ?_, ?_⟩
  · unfold fetchAmazonReviewsApifyModel
    rcases hx : extractAsinAndDomainRev productURL parsed with ⟨a, d⟩
    rcases a with _ | av <;> rcases d with _ | dv <;> rfl
  · intro a d hx
    unfold fetchAmazonReviewsApifyModel
    rw [hx]
  · induction items with
    | nil => intro s hs; cases hs
    | cons o rest ih =>
      rcases o with _ | it
      · exact ih
      · intro s hs
        simp only [processReviewItems] at hs
        rcases hmt : nonBlankTrim it.text with _ | m
        · rw [hmt] at hs
          exact ih s hs
        · rw [hmt] at hs
          rcases List.mem_cons.mp hs with rfl | hs2
          · exact nonBlankTrim_eq_some hmt
          · exact ih s hs2
  · induction items with
    | nil => rfl
    | cons o rest ih =>
      rcases o with _ | it
      · simpa [processReviewItems, firstNonBlankTitleSpec] using ih
      · simp only [processReviewItems, firstNonBlankTitleSpec]
        rcases hmt : nonBlankTrim it.productTitle with _ | t <;> simp [hmt, ih]

theorem reviews_extraction_policy_witness :
    fetchAmazonReviewsApifyModel (some "tok") "https://www.amazon.com/dp/B0TESTITEM"
        (some ⟨"www.amazon.com", "/dp/B0TESTITEM", none⟩)
        (.items [some ⟨some "  nice product  ", some "  Alt Title "⟩,
                 some ⟨some "   ", some "Ignored Later Title"⟩, none]) =
      processReviewItems
        [some ⟨some "  nice product  ", some "  Alt Title "⟩,
         some ⟨some "   ", some "Ignored Later Title"⟩, none] :=
  (reviews_extraction_policy "tok" "https://www.amazon.com/dp/B0TESTITEM"
      (some ⟨"www.amazon.com", "/dp/B0TESTITEM", none⟩)
      [some ⟨some "  nice product  ", some "  Alt Title "⟩,
       some ⟨some "   ", some "Ignored Later Title"⟩, none]).2.1
    "B0TESTITEM" "com" (by decide)

/-- C8: the customer-reviews block built for the prompt. -/
theorem customer_reviews_block (reviews : List String) :
    (customerReviewsText reviews = none ↔ reviews = []) ∧
    (reviews ≠ [] → customerReviewsText reviews =
      some (jsJoin "\x5cn" (bulletLines reviews))) ∧
    (bulletLines reviews).length ≤ 10 ∧
    (∀ b ∈ bulletLines reviews, ∃ r ∈ reviews,
      b = "- " ++ jsTake r 300 ++ (if jsLen r > 300 then "..." else "") ∧
      jsLen (jsTake r 300) ≤ 300) ∧
    composeCustomerReviewsText none = none := by
  refine ⟨?_, ?_, ?_, ?_, rfl⟩
  · unfold customerReviewsText
    cases reviews <;> simp
  · intro h
    unfold customerReviewsText
    cases reviews
    · exact absurd rfl h
    · simp
  · unfold bulletLines
    rw [List.length_map, List.length_take]
    omega
  · intro b hb
    unfold bulletLines at hb
    rcases List.mem_map.mp hb with ⟨r, hr, rfl⟩
    refine ⟨r, List.mem_of_mem_take hr, rfl, ?_⟩
    simp only [jsLen, jsTake]
    rw [List.length_take]
    omega

theorem customer_reviews_block_witness :
    customerReviewsText ["short one"] = some (jsJoin "\x5cn" (bulletLines ["short one"])) :=
  (customer_reviews_block ["short one"]).2.1 (by decide)

end ReviewForge
